import Mathlib

/-!
Verification of the retrieval pipeline of the aws-rag-triviaqa-demo repository.

The Python sources are shallowly embedded as executable Lean definitions:

* `BuildFaissIndex` models `local-faiss-demo/build_faiss_index.py`
  (windowed chunking, paired FAISS-add / metadata-append ingest loop);
* `EmbdToAoss` models `aoss-serverless-demo/ec2-utils/embd_to_aoss.py`
  (sentence-aware chunking, per-chunk try/except ingest loop);
* `QueryRagLocal` models `local-faiss-demo/query_rag.py`
  (top-k retrieval over a flat L2 index, prompt building, Bedrock model
  dispatch by model-id string matching);
* `LambdaFunction` models `aoss-serverless-demo/lambda/lambda_function.py`
  (request handler, prompt assembly, Bedrock model dispatch).

Texts are represented at the word level: a document is the list of words
produced by Python `str.split()`, a chunk is its list of words (the
source joins words back with single spaces, which is invertible because
split() yields nonempty whitespace-free words).  float32 vectors are
modelled as lists of rationals.  Remote calls (Bedrock, S3, AOSS) are
modelled as explicit oracle arguments, and the number of transport
invocations is returned alongside results where a claim is about whether
a transport call happens.
-/

/-- Python built-in `range(0, stop, step)` for a positive `step`:
the multiples of `step` that are strictly below `stop`, in order.
(The callers below handle the `step = 0` and `step < 0` cases of the
Python semantics separately.) -/
def pyRange (stop step : Nat) : List Nat :=
  (List.range ((stop + step - 1) / step)).map (fun i => i * step)

theorem pyRange_zero (step : Nat) : pyRange 0 step = [] := by
  unfold pyRange
  rcases Nat.eq_zero_or_pos step with h | h
  · simp [h]
  · rw [Nat.div_eq_of_lt (by omega)]
    simp

theorem pyRange_pos {stop step : Nat} (hstep : 0 < step) (hstop : 0 < stop) :
    pyRange stop step = 0 :: (pyRange (stop - step) step).map (fun i => i + step) := by
  have hceil : (stop + step - 1) / step = (stop - step + step - 1) / step + 1 := by
    rcases le_or_lt step stop with h | h
    · have he : stop + step - 1 = (stop - step + step - 1) + step := by omega
      rw [he, Nat.add_div_right _ hstep]
    · have h1 : stop - step = 0 := by omega
      rw [h1]
      have h2 : (0 + step - 1) / step = 0 := Nat.div_eq_of_lt (by omega)
      rw [h2]
      exact Nat.div_eq_of_lt_le (by omega) (by omega)
  unfold pyRange
  rw [hceil, List.range_succ_eq_map]
  simp [List.map_map, Function.comp_def, Nat.succ_mul, Nat.add_comm]

theorem pyRange_neg {stop step : Nat} (h : stop = 0 ∨ step = 0) :
    pyRange stop step = [] := by
  rcases h with h | h
  · rw [h, pyRange_zero]
  · unfold pyRange
    simp [h]

/-- Metadata record stored next to each indexed vector:
the dict `{"chunk": chunk, "source": key}` of `build_faiss_index.py`
(also the shape read back by `query_rag.py`). -/
structure Metadata where
  chunk : String
  source : String
deriving DecidableEq, Repr

/-- Python `str.startswith`: prefix test on the character sequence. -/
def startswith (s pre : String) : Bool :=
  pre.data.isPrefixOf s.data

/-- Python `str.lower` (character-wise lowercasing). -/
def tolower (s : String) : String :=
  ⟨s.data.map Char.toLower⟩

/-- Python `str.strip` with no argument: remove leading and trailing
whitespace. -/
def strip (s : String) : String :=
  ⟨((s.data.dropWhile Char.isWhitespace).reverse.dropWhile
    Char.isWhitespace).reverse⟩

namespace BuildFaissIndex

/-- The window at offset `i`: Python slice `words[i : i + max_words]`. -/
def window (words : List α) (max_words i : Nat) : List α :=
  (words.drop i).take max_words

/-- All windows of `chunk_text`, one per index of `range(0, len(words), s)`. -/
def windowChunks (words : List α) (max_words s : Nat) : List (List α) :=
  (pyRange words.length s).map (window words max_words)

/-- Word-level embedding of `chunk_text(text, max_words=200, overlap=50)` from
`build_faiss_index.py`.  The Python body is
`for i in range(0, len(words), max_words - overlap): chunk = ' '.join(words[i:i+max_words]); if chunk: chunks.append(chunk)`.
The step of `range` is the Python int `max_words - overlap`: when it is zero
`range` raises `ValueError`, when it is negative `range(0, n, step)` is empty,
so no chunk is produced and no error is raised.  The `if chunk:` guard keeps
only windows whose joined text is nonempty, i.e. nonempty word lists. -/
def chunk_text (words : List α) (max_words overlap : Nat) :
    Except String (List (List α)) :=
  if max_words = overlap then .error "range() arg 3 must not be zero"
  else if max_words < overlap then .ok []
  else .ok ((windowChunks words max_words (max_words - overlap)).filter
    (fun c => !c.isEmpty))

/-- One ingest operation of `process_file`: a chunk, its source key, and the
embedding returned for it (the claim ranges over successful operations, so the
embedding is given as data). -/
structure IngestOp where
  chunk : String
  source : String
  embedding : List ℚ
deriving DecidableEq, Repr

/-- The paired FAISS index / metadata list state of `build_faiss_index.py`. -/
structure RagIndexState where
  vectors : List (List ℚ)
  metadata : List Metadata
deriving DecidableEq, Repr

/-- One loop iteration of `process_file`: `index.add(...)` followed by
`metadata_list.append({"chunk": chunk, "source": key})`. -/
def ingest_chunk (st : RagIndexState) (op : IngestOp) : RagIndexState :=
  ⟨st.vectors ++ [op.embedding], st.metadata ++ [⟨op.chunk, op.source⟩]⟩

/-- A sequence of successful ingest operations applied in order
(the chunk loops of `process_file`, over all processed files). -/
def process_ingest (st : RagIndexState) (ops : List IngestOp) : RagIndexState :=
  ops.foldl ingest_chunk st

/-- The chunk loop of `process_file` with a fallible embedding call.
There is no try/except in `process_file`: an exception from
`get_titan_embedding` propagates, so the loop stops at the first failing
chunk, keeping the state built so far and reporting the error. -/
def process_chunks (embed : String → Except String (List ℚ)) (source : String) :
    List String → RagIndexState → RagIndexState × Option String
  | [], st => (st, none)
  | c :: rest, st =>
    match embed c with
    | .error e => (st, some e)
    | .ok v => process_chunks embed source rest (ingest_chunk st ⟨c, source, v⟩)

end BuildFaissIndex

namespace EmbdToAoss

/-- The accumulation loop of `chunk_text` in `embd_to_aoss.py`.
Sentences are represented by their word lists (each sentence `s` contributes
`w = len(s.split())` words).  State mirrors the Python locals: `chunks` holds
the flushed chunks (as word lists, since `" ".join(current)` splits back to
the concatenation of the sentences' words), `current` the accumulated
sentences, `count` the running word count. -/
def chunkAux (max_words : Nat) :
    List (List α) → List (List α) → List (List α) → Nat →
    List (List α) × List (List α) × Nat
  | [], chunks, current, count => (chunks, current, count)
  | s :: rest, chunks, current, count =>
    let w := s.length
    if max_words < count + w then
      chunkAux max_words rest (chunks ++ [current.flatten]) [s] w
    else
      chunkAux max_words rest chunks (current ++ [s]) (count + w)

/-- Word-level embedding of the sentence-aware `chunk_text(text, max_words=200)`
of `embd_to_aoss.py`: greedy accumulation of whole sentences, flushing when the
next sentence would exceed `max_words`; the trailing `if current:` flush. -/
def chunk_text (sentences : List (List α)) (max_words : Nat) : List (List α) :=
  let r := chunkAux max_words sentences [] [] 0
  if r.2.1.isEmpty then r.1 else r.1 ++ [r.2.1.flatten]

/-- A document stored in the AOSS index by `index_chunk`. -/
structure AossDoc where
  chunk : String
  embedding : List ℚ
  source : String
deriving DecidableEq, Repr

/-- The per-file chunk loop of `process_files` in `embd_to_aoss.py`:
chunks whose stripped length is below 20 are skipped, the embed-and-index
work for a chunk runs inside `try: ... except Exception: ...`, so a failing
chunk is skipped and the loop continues with the next chunk. -/
def process_chunks_loop (embedIndex : String → Except String (List ℚ))
    (source : String) : List String → List AossDoc → List AossDoc
  | [], docs => docs
  | c :: rest, docs =>
    if (strip c).length < 20 then
      process_chunks_loop embedIndex source rest docs
    else
      match embedIndex c with
      | .error _ => process_chunks_loop embedIndex source rest docs
      | .ok v => process_chunks_loop embedIndex source rest (docs ++ [⟨c, v, source⟩])

end EmbdToAoss

namespace QueryRagLocal

/-- Request body shapes built by `call_bedrock_model` in
`local-faiss-demo/query_rag.py`, one per supported model family. -/
inductive BedrockRequest where
  | claude (prompt : String) (max_tokens_to_sample : Nat) (temperature : ℚ)
      (stop_sequences : List String)
  | titan (inputText : String)
  | mistral (prompt : String) (max_tokens : Nat) (temperature : ℚ)
deriving DecidableEq, Repr

/-- Embedding of `call_bedrock_model(prompt, bedrock, model_id)`.
The `transport` oracle stands for `bedrock.invoke_model` together with the
per-family response-field extraction; the second component counts how many
times the transport was invoked.  An unknown model id raises
`ValueError(f"Unsupported model: ...")` before any transport call. -/
def call_bedrock_model (prompt : String)
    (transport : BedrockRequest → String) (model_id : String) :
    Except String String × Nat :=
  if startswith model_id "anthropic.claude" then
    (.ok (transport (.claude prompt 300 (7/10) ["\n\n"])), 1)
  else if startswith model_id "amazon.titan-text" then
    (.ok (transport (.titan prompt)), 1)
  else if startswith model_id "mistral." then
    (.ok (transport (.mistral prompt 300 (7/10))), 1)
  else
    (.error ("Unsupported model: " ++ model_id), 0)

/-- The raw prompt built in `main` when `--disable-rag` is set
(`query_rag.py` line 160). -/
def disable_rag_prompt (question : String) : String :=
  "Answer the following question:\n\nQuestion: " ++ question ++ "\n\nAnswer:"

/-- Squared Euclidean distance, the metric of `faiss.IndexFlatL2`
(float32 arithmetic modelled over the rationals). -/
def sqDist (u v : List ℚ) : ℚ :=
  (List.zipWith (fun a b => (a - b) * (a - b)) u v).sum

/-- Insertion into a list sorted by ascending (distance, slot). -/
def insertSorted (x : ℚ × Int) : List (ℚ × Int) → List (ℚ × Int)
  | [] => [x]
  | y :: ys =>
    if x.1 < y.1 ∨ (x.1 = y.1 ∧ x.2 < y.2) then x :: y :: ys
    else y :: insertSorted x ys

/-- Sort scored slots by ascending (distance, slot). -/
def sortScored (l : List (ℚ × Int)) : List (ℚ × Int) :=
  l.foldr insertSorted []

/-- Modelled from the documented behaviour of `faiss.IndexFlatL2.search`
(an external library call made by `retrieve_top_k`): for a single query it
returns exactly `k` labels, the nearest stored vectors by ascending squared
L2 distance, and when fewer than `k` vectors are stored the missing label
slots are padded with `-1`. -/
def faissSearch (xb : List (List ℚ)) (q : List ℚ) (k : Nat) : List Int :=
  let scored := (List.range xb.length).map (fun i => (sqDist q (xb.getD i []), (i : Int)))
  let top := ((sortScored scored).take k).map (fun p => p.2)
  top ++ List.replicate (k - top.length) (-1)

/-- Python list subscription `l[i]`: negative indices count from the end,
out-of-range access raises `IndexError: list index out of range`. -/
def pyGetItem (l : List β) (i : Int) : Except String β :=
  if 0 ≤ i then
    if h : i.toNat < l.length then .ok (l.get ⟨i.toNat, h⟩)
    else .error "list index out of range"
  else
    let j := (l.length : Int) + i
    if 0 ≤ j then
      if h : j.toNat < l.length then .ok (l.get ⟨j.toNat, h⟩)
      else .error "list index out of range"
    else .error "list index out of range"

/-- Embedding of `retrieve_top_k(index, embedding, metadata, k=TOP_K)`:
`D, I = index.search(..., k)` followed by `[metadata[i] for i in I[0]]`. -/
def retrieve_top_k (xb : List (List ℚ)) (embedding : List ℚ)
    (metadata : List Metadata) (k : Nat := 5) : Except String (List Metadata) :=
  (faissSearch xb embedding k).mapM (pyGetItem metadata)

end QueryRagLocal

namespace LambdaFunction

/-- Request body shapes built by `generate_answer` in `lambda_function.py`,
one per supported model family.  For Claude the prompt is wrapped in the
Human/Assistant template by the body builder itself. -/
inductive BedrockRequest where
  | claude (prompt : String) (max_tokens_to_sample : Nat) (temperature : ℚ)
      (top_k : Nat) (top_p : ℚ) (stop_sequences : List String)
  | titan (inputText : String) (maxTokenCount : Nat) (temperature : ℚ) (topP : ℚ)
  | mistral (prompt : String) (max_tokens : Nat) (temperature : ℚ) (top_p : ℚ)
      (stop : List String)
  | cohere (prompt : String) (max_tokens : Nat) (temperature : ℚ) (p : ℚ)
      (stop_sequences : List String)
deriving DecidableEq, Repr

/-- Embedding of `generate_answer(prompt, model_id)` from
`lambda_function.py`.  The `transport` oracle stands for
`bedrock.invoke_model` plus the per-family answer-field extraction; the
second component counts transport invocations.  An unknown model id raises
`ValueError` before any transport call. -/
def generate_answer (prompt : String) (model_id : String)
    (transport : BedrockRequest → String) : Except String String × Nat :=
  if startswith model_id "anthropic.claude" then
    (.ok (transport (.claude ("\n\nHuman: " ++ prompt ++ "\n\nAssistant:")
      512 (5/10) 250 (9/10) ["\n\nHuman:"])), 1)
  else if startswith model_id "amazon.titan-text" then
    (.ok (transport (.titan prompt 512 (5/10) (9/10))), 1)
  else if startswith model_id "mistral.mistral-7b" then
    (.ok (transport (.mistral prompt 512 (7/10) (9/10) [])), 1)
  else if startswith model_id "cohere.command-r" then
    (.ok (transport (.cohere prompt 512 (7/10) (9/10) [])), 1)
  else
    (.error ("Unsupported model_id: " ++ model_id), 0)

/-- The RAG prompt template assembled in `lambda_handler` when
`enable_rag` is true (`chr(10)` is the newline joining the chunks). -/
def rag_prompt (question : String) (context_chunks : List String) : String :=
  "Use the context below to answer the question.\nContext:\n" ++
    String.intercalate "\n" context_chunks ++
    "\n\nQuestion: " ++ question ++ "\nAnswer:"

/-- Prompt assembly of `lambda_handler` (lines 158-169): the RAG template
when `use_rag` is set, the bare question otherwise. -/
def full_prompt (use_rag : Bool) (question : String)
    (context_chunks : List String) : String :=
  if use_rag then rag_prompt question context_chunks else question

/-- Body of a handler response: the literal 400 message, or the JSON object
`json.dumps({"answer": a})` (serialization abstracted as a constructor). -/
inductive LambdaBody where
  | missingPrompt
  | answerJson (answer : String)
deriving DecidableEq, Repr

/-- True on bodies that carry an answer JSON object. -/
def LambdaBody.isAnswer : LambdaBody → Bool
  | .missingPrompt => false
  | .answerJson _ => true

/-- A handler response dict with status code and body. -/
structure LambdaResponse where
  statusCode : Nat
  body : LambdaBody
deriving DecidableEq, Repr

/-- Python `params.get(key, default)` over the query-string parameters. -/
def paramsGet (ps : List (String × String)) (k d : String) : String :=
  match ps.lookup k with
  | some v => v
  | none => d

/-- Embedding of `lambda_handler`.  `qsp` is the `queryStringParameters`
dict; `embed`, `search` and `transport` are the Bedrock-embedding, AOSS
k-NN search and Bedrock-generation collaborators.  The result carries the
response (`Except.error` when an uncaught Python exception propagates) and
the number of embedding, search and generation-transport calls made. -/
def lambda_handler (qsp : List (String × String))
    (embed : String → Except String (List ℚ))
    (search : List ℚ → Except String (List String))
    (transport : BedrockRequest → String) :
    Except String LambdaResponse × Nat × Nat × Nat :=
  let question := paramsGet qsp "prompt" ""
  let model_id := paramsGet qsp "model_id" "amazon.titan-text-lite-v1"
  let use_rag := tolower (paramsGet qsp "enable_rag" "false") == "true"
  if question = "" then (.ok ⟨400, .missingPrompt⟩, 0, 0, 0)
  else if use_rag then
    match embed question with
    | .error e => (.error e, 1, 0, 0)
    | .ok v =>
      match search v with
      | .error e => (.error e, 1, 1, 0)
      | .ok chunks =>
        match generate_answer (rag_prompt question chunks) model_id transport with
        | (.error e, n) => (.error e, 1, 1, n)
        | (.ok a, n) => (.ok ⟨200, .answerJson (strip a)⟩, 1, 1, n)
  else
    match generate_answer question model_id transport with
    | (.error e, n) => (.error e, 0, 0, n)
    | (.ok a, n) => (.ok ⟨200, .answerJson (strip a)⟩, 0, 0, n)

end LambdaFunction

/-- Removal of the overlap duplication from consecutive chunks, as described
by the claim: keep the first chunk whole and drop the first `overlap` words
of every later chunk, then concatenate. -/
def dropOverlap (overlap : Nat) : List (List α) → List α
  | [] => []
  | c :: cs => c ++ (cs.map (fun d => d.drop overlap)).flatten

/-- True on a successful embedding result (models "no exception raised"). -/
def exceptOkB (x : Except String (List ℚ)) : Bool :=
  match x with
  | .ok _ => true
  | .error _ => false

/-- The vector carried by a successful embedding result. -/
def exceptVal (x : Except String (List ℚ)) : List ℚ :=
  match x with
  | .ok v => v
  | .error _ => []

/-- The message carried by a failed embedding result. -/
def exceptErr (x : Except String (List ℚ)) : String :=
  match x with
  | .ok _ => ""
  | .error e => e

/-! Lemmas about `pyRange` and the windowed chunker. -/

theorem mem_pyRange_lt {step : Nat} (hs : 0 < step) :
    ∀ (stop i : Nat), i ∈ pyRange stop step → i < stop := by
  intro stop
  induction stop using Nat.strong_induction_on with
  | _ stop ih =>
    intro i hi
    by_cases h0 : 0 < stop
    · rw [pyRange_pos hs h0] at hi
      rcases List.mem_cons.mp hi with h | h
      · omega
      · rcases List.mem_map.mp h with ⟨j, hj, rfl⟩
        have := ih (stop - step) (by omega) j hj
        omega
    · rw [pyRange_neg (Or.inl (by omega))] at hi
      simp at hi

theorem pyRange_length_mul_lt {step : Nat} (hs : 0 < step) :
    ∀ (stop j : Nat), j < (pyRange stop step).length → step * j < stop := by
  intro stop
  induction stop using Nat.strong_induction_on with
  | _ stop ih =>
    intro j hj
    by_cases h0 : 0 < stop
    · rw [pyRange_pos hs h0] at hj
      simp only [List.length_cons, List.length_map] at hj
      match j with
      | 0 => omega
      | j + 1 =>
        have := ih (stop - step) (by omega) j (by omega)
        rw [Nat.mul_succ]
        omega
    · rw [pyRange_neg (Or.inl (by omega))] at hj
      simp at hj

namespace BuildFaissIndex

theorem windowChunks_nil (m s : Nat) : windowChunks ([] : List α) m s = [] := by
  simp [windowChunks, pyRange_zero]

theorem windowChunks_cons {words : List α} (m : Nat) {s : Nat} (hs : 0 < s)
    (hw : words ≠ []) :
    windowChunks words m s = words.take m :: windowChunks (words.drop s) m s := by
  have hlen : 0 < words.length := List.length_pos.mpr hw
  unfold windowChunks
  rw [pyRange_pos hs hlen]
  simp only [List.map_cons, List.map_map, List.length_drop]
  congr 1
  all_goals simp [window, Nat.add_comm]

theorem windowChunks_words_ne_nil {words : List α} {m s j : Nat}
    (h : j < (windowChunks words m s).length) : words ≠ [] := by
  intro h0
  rw [h0, windowChunks_nil] at h
  simp at h

theorem windowChunks_getD {s : Nat} (hs : 0 < s) (m : Nat) :
    ∀ (j : Nat) (words : List α), j < (windowChunks words m s).length →
      (windowChunks words m s).getD j [] = (words.drop (s * j)).take m := by
  intro j
  induction j with
  | zero =>
    intro words hj
    rw [windowChunks_cons m hs (windowChunks_words_ne_nil hj)]
    simp
  | succ j ih =>
    intro words hj
    have hw := windowChunks_words_ne_nil hj
    rw [windowChunks_cons m hs hw] at hj ⊢
    simp only [List.length_cons] at hj
    have h1 : s + s * j = s * (j + 1) := by ring
    rw [List.getD_cons_succ, ih (words.drop s) (by omega), List.drop_drop, h1]

theorem windowChunks_length_mul_lt {words : List α} {m s : Nat} (hs : 0 < s) :
    ∀ j, j < (windowChunks words m s).length → s * j < words.length := by
  intro j hj
  have : (windowChunks words m s).length = (pyRange words.length s).length := by
    simp [windowChunks]
  exact pyRange_length_mul_lt hs words.length j (this ▸ hj)

theorem windowChunks_filter {m s : Nat} (hm : 0 < m) (hs : 0 < s)
    (words : List α) :
    (windowChunks words m s).filter (fun c => !c.isEmpty) =
      windowChunks words m s := by
  rw [List.filter_eq_self]
  intro c hc
  rcases List.mem_map.mp hc with ⟨i, hi, rfl⟩
  have hilt := mem_pyRange_lt hs _ _ hi
  have hne : window words m i ≠ [] := by
    intro h
    have := congrArg List.length h
    simp [window, List.length_take, List.length_drop] at this
    omega
  simp [List.isEmpty_iff, hne]

/-- For a successful windowed chunking call the result is exactly the list of
windows (the `if chunk:` filter drops nothing when `max_words > overlap`). -/
theorem chunk_text_ok {words : List α} {max_words overlap : Nat}
    (h : overlap < max_words) :
    chunk_text words max_words overlap =
      .ok (windowChunks words max_words (max_words - overlap)) := by
  unfold chunk_text
  rw [if_neg (by omega), if_neg (by omega),
    windowChunks_filter (by omega) (by omega)]

end BuildFaissIndex

/-- C2: for windowed chunking with `max_words = 200` and `overlap = 50` on a
text of more than 200 words, each chunk starts a stride of 150 words after
the previous one (chunk `j` is `words[150*j : 150*j + 200]`), and any two
consecutive chunks not involving the final chunk share exactly 50 words at
the boundary: the earlier chunk is 200 words long, its last 50 words equal
the first 50 words of the next chunk. -/
theorem C2_window_overlap (α : Type) (words : List α)
    (_hlen : 200 < words.length) (cs : List (List α))
    (hcs : BuildFaissIndex.chunk_text words 200 50 = .ok cs) :
    (∀ j, j < cs.length → cs.getD j [] = (words.drop (150 * j)).take 200) ∧
    (∀ j, j + 2 < cs.length →
      (cs.getD j []).length = 200 ∧
      (cs.getD j []).drop 150 = (cs.getD (j + 1) []).take 50 ∧
      ((cs.getD j []).drop 150).length = 50) := by
  rw [BuildFaissIndex.chunk_text_ok (by omega)] at hcs
  have hcs' : cs = BuildFaissIndex.windowChunks words 200 150 := by
    injection hcs with h
    exact h.symm
  subst hcs'
  have h150 : (0 : Nat) < 150 := by omega
  refine ⟨fun j hj => BuildFaissIndex.windowChunks_getD h150 200 j words hj, ?_⟩
  intro j hj
  have hb : 150 * (j + 2) < words.length :=
    BuildFaissIndex.windowChunks_length_mul_lt h150 (j + 2) hj
  have hj0 : j < (BuildFaissIndex.windowChunks words 200 150).length := by omega
  have hj1 : j + 1 < (BuildFaissIndex.windowChunks words 200 150).length := by
    omega
  rw [BuildFaissIndex.windowChunks_getD h150 200 j words hj0,
    BuildFaissIndex.windowChunks_getD h150 200 (j + 1) words hj1]
  have harith : 150 * (j + 2) = 150 * j + 300 := by ring
  refine ⟨?_, ?_, ?_⟩
  · simp only [List.length_take, List.length_drop]
    omega
  · rw [List.drop_take, List.drop_drop, List.take_take]
    have h1 : 150 * j + 150 = 150 * (j + 1) := by ring
    have h2 : (200 : Nat) - 150 = 50 := by omega
    have h3 : min 50 200 = 50 := by omega
    rw [h1, h2, h3]
  · simp only [List.length_drop, List.length_take]
    omega

set_option maxRecDepth 8000 in
/-- Witness for C2 at a concrete 350-word text. -/
theorem C2_window_overlap_witness :
    200 < (List.range 350).length ∧
    ((BuildFaissIndex.windowChunks (List.range 350) 200 150).getD 0 []).length = 200 ∧
    ((BuildFaissIndex.windowChunks (List.range 350) 200 150).getD 0 []).drop 150 =
      ((BuildFaissIndex.windowChunks (List.range 350) 200 150).getD 1 []).take 50 := by
  have h := C2_window_overlap ℕ (List.range 350) (by simp)
    (BuildFaissIndex.windowChunks (List.range 350) 200 150)
    (BuildFaissIndex.chunk_text_ok (by omega))
  have hl : 0 + 2 < (BuildFaissIndex.windowChunks (List.range 350) 200 150).length := by
    decide
  exact ⟨by simp, (h.2 0 hl).1, (h.2 0 hl).2.1⟩

/-! Lemmas about the sentence-aware chunker of `embd_to_aoss.py`. -/

namespace EmbdToAoss

theorem chunkAux_flatten (max_words : Nat) :
    ∀ (ss chunks current : List (List α)) (count : Nat),
      (chunkAux max_words ss chunks current count).1.flatten ++
        (chunkAux max_words ss chunks current count).2.1.flatten =
      chunks.flatten ++ current.flatten ++ ss.flatten := by
  intro ss
  induction ss with
  | nil =>
    intro chunks current count
    simp [chunkAux]
  | cons s rest ih =>
    intro chunks current count
    simp only [chunkAux]
    by_cases h : max_words < count + s.length
    · rw [if_pos h, ih]
      simp [List.flatten_append, List.append_assoc]
    · rw [if_neg h, ih]
      simp [List.flatten_append, List.append_assoc]

/-- The sentence-aware chunks concatenate back to the input word sequence. -/
theorem chunk_text_flatten (ss : List (List α)) (m : Nat) :
    (chunk_text ss m).flatten = ss.flatten := by
  unfold chunk_text
  have h := chunkAux_flatten m ss [] [] 0
  by_cases he : (chunkAux m ss [] [] 0).2.1.isEmpty
  · rw [if_pos he]
    have h0 : (chunkAux m ss [] [] 0).2.1 = [] := List.isEmpty_iff.mp he
    rw [h0] at h
    simpa using h
  · rw [if_neg he]
    rw [List.flatten_append]
    simpa using h

theorem chunkAux_le (m : Nat) :
    ∀ (ss chunks current : List (List α)) (count : Nat),
      (∀ c ∈ chunks, c.length ≤ m) →
      current.flatten.length = count →
      count ≤ m →
      (∀ s ∈ ss, s.length ≤ m) →
      (∀ c ∈ (chunkAux m ss chunks current count).1, c.length ≤ m) ∧
      (chunkAux m ss chunks current count).2.1.flatten.length =
        (chunkAux m ss chunks current count).2.2 ∧
      (chunkAux m ss chunks current count).2.2 ≤ m := by
  intro ss
  induction ss with
  | nil =>
    intro chunks current count h1 h2 h3 _
    simp only [chunkAux]
    exact ⟨h1, h2, h3⟩
  | cons s rest ih =>
    intro chunks current count h1 h2 h3 hs
    have hsm : s.length ≤ m := hs s (by simp)
    simp only [chunkAux]
    by_cases h : m < count + s.length
    · rw [if_pos h]
      apply ih
      · intro c hc
        rcases List.mem_append.mp hc with h' | h'
        · exact h1 c h'
        · have hc' : c = current.flatten := by simpa using h'
          rw [hc', h2]
          exact h3
      · simp
      · exact hsm
      · intro s' h'
        exact hs s' (List.mem_cons_of_mem _ h')
    · rw [if_neg h]
      apply ih
      · exact h1
      · simp [List.flatten_append, h2]
      · omega
      · intro s' h'
        exact hs s' (List.mem_cons_of_mem _ h')

/-- When every sentence fits in `max_words`, every sentence-aware chunk does. -/
theorem chunk_text_le (ss : List (List α)) (m : Nat)
    (hs : ∀ s ∈ ss, s.length ≤ m) :
    ∀ c ∈ chunk_text ss m, c.length ≤ m := by
  unfold chunk_text
  have h := chunkAux_le m ss [] [] 0 (by simp) (by simp) (by omega) hs
  by_cases he : (chunkAux m ss [] [] 0).2.1.isEmpty
  · rw [if_pos he]
    exact h.1
  · rw [if_neg he]
    intro c hc
    rcases List.mem_append.mp hc with h' | h'
    · exact h.1 c h'
    · have hc' : c = (chunkAux m ss [] [] 0).2.1.flatten := by simpa using h'
      rw [hc', h.2.1]
      exact h.2.2

end EmbdToAoss

namespace BuildFaissIndex

/-- Every windowed chunk has at most `max_words` words. -/
theorem chunk_text_mem_length_le {words : List α} {max_words overlap : Nat}
    {cs : List (List α)} (h : chunk_text words max_words overlap = .ok cs) :
    ∀ c ∈ cs, c.length ≤ max_words := by
  unfold chunk_text at h
  by_cases h1 : max_words = overlap
  · rw [if_pos h1] at h
    simp at h
  · rw [if_neg h1] at h
    by_cases h2 : max_words < overlap
    · rw [if_pos h2] at h
      injection h with h
      intro c hc
      rw [← h] at hc
      simp at hc
    · rw [if_neg h2] at h
      injection h with h
      intro c hc
      rw [← h] at hc
      rcases List.mem_filter.mp hc with ⟨hc', _⟩
      rcases List.mem_map.mp hc' with ⟨i, _, rfl⟩
      simp only [window]
      exact List.length_take_le _ _

end BuildFaissIndex

namespace BuildFaissIndex

theorem windowChunks_dropv_flatten {m v s : Nat} (hs : 0 < s) (hm : m = s + v) :
    ∀ (n : Nat) (words : List α), words.length ≤ n →
      ((windowChunks words m s).map (fun c => c.drop v)).flatten = words.drop v := by
  intro n
  induction n with
  | zero =>
    intro words h
    have h0 : words = [] := by
      cases words with
      | nil => rfl
      | cons a l => simp at h
    rw [h0, windowChunks_nil]
    simp
  | succ n ih =>
    intro words h
    by_cases hw : words = []
    · rw [hw, windowChunks_nil]
      simp
    · rw [windowChunks_cons m hs hw]
      simp only [List.map_cons, List.flatten_cons]
      have hlen : 0 < words.length := List.length_pos.mpr hw
      rw [ih (words.drop s) (by simp only [List.length_drop]; omega)]
      rw [List.drop_drop, List.drop_take]
      have h1 : m - v = s := by omega
      have h2 : words.drop (s + v) = (words.drop v).drop s := by
        rw [List.drop_drop, Nat.add_comm]
      rw [h1, h2, List.take_append_drop]

/-- Removing the overlap duplication from the windowed chunks reconstructs
the original word sequence (for `overlap < max_words`). -/
theorem dropOverlap_windowChunks {m v : Nat} (hv : v < m) (words : List α) :
    dropOverlap v (windowChunks words m (m - v)) = words := by
  have hs0 : 0 < m - v := by omega
  by_cases hw : words = []
  · rw [hw, windowChunks_nil]
    rfl
  · rw [windowChunks_cons m hs0 hw]
    show words.take m ++
      ((windowChunks (words.drop (m - v)) m (m - v)).map (fun d => d.drop v)).flatten = words
    rw [windowChunks_dropv_flatten hs0 (by omega) (words.drop (m - v)).length _ le_rfl]
    rw [List.drop_drop]
    have h1 : m - v + v = m := by omega
    rw [h1, List.take_append_drop]

end BuildFaissIndex

theorem exists_mem_of_mem_dropOverlap {v : Nat} {cs : List (List α)} {x : α}
    (h : x ∈ dropOverlap v cs) : ∃ c ∈ cs, x ∈ c := by
  cases cs with
  | nil => simp [dropOverlap] at h
  | cons c cs' =>
    simp only [dropOverlap, List.mem_append] at h
    rcases h with h | h
    · exact ⟨c, by simp, h⟩
    · rcases List.mem_flatten.mp h with ⟨d', hd', hx⟩
      rcases List.mem_map.mp hd' with ⟨d, hd, rfl⟩
      exact ⟨d, List.mem_cons_of_mem _ hd, List.mem_of_mem_drop hx⟩

/-- C3 counterexample: under the sentence-aware policy of `embd_to_aoss.py`,
a single sentence of 3 words with `max_words = 2` becomes a chunk of 3 words,
exceeding the configured maximum. -/
theorem C3_counterexample :
    [0, 0, 0] ∈ EmbdToAoss.chunk_text [[(0 : ℕ), 0, 0]] 2 ∧
    2 < ([0, 0, 0] : List ℕ).length := by
  constructor
  · decide
  · decide

/-- C3 amended: every chunk of the windowed policy has at most `max_words`
words; a chunk of the sentence-aware policy has at most `max_words` words
provided every sentence of the input has at most `max_words` words (a longer
sentence becomes a chunk on its own, exceeding the maximum). -/
theorem C3_chunk_bound_amended :
    (∀ (α : Type) (words : List α) (max_words overlap : Nat)
      (cs : List (List α)),
      BuildFaissIndex.chunk_text words max_words overlap = .ok cs →
      ∀ c ∈ cs, c.length ≤ max_words) ∧
    (∀ (α : Type) (ss : List (List α)) (max_words : Nat),
      (∀ s ∈ ss, s.length ≤ max_words) →
      ∀ c ∈ EmbdToAoss.chunk_text ss max_words, c.length ≤ max_words) :=
  ⟨fun _ _ _ _ _ h => BuildFaissIndex.chunk_text_mem_length_le h,
   fun _ ss max_words hs => EmbdToAoss.chunk_text_le ss max_words hs⟩

/-- Witness for C3 (amended) at concrete inputs for both policies. -/
theorem C3_chunk_bound_amended_witness :
    BuildFaissIndex.chunk_text [(0 : ℕ), 1, 2] 2 1 =
      .ok (BuildFaissIndex.windowChunks [0, 1, 2] 2 1) ∧
    ([0, 1] : List ℕ).length ≤ 2 ∧
    ([5, 6] : List ℕ).length ≤ 2 := by
  refine ⟨BuildFaissIndex.chunk_text_ok (by omega), ?_, ?_⟩
  · exact C3_chunk_bound_amended.1 ℕ [0, 1, 2] 2 1 _
      (BuildFaissIndex.chunk_text_ok (by omega)) [0, 1] (by decide)
  · exact C3_chunk_bound_amended.2 ℕ [[5], [6]] 2 (by decide) [5, 6] (by decide)

/-- C4: chunk coverage.  For the windowed policy with `overlap < max_words`,
dropping the first `overlap` words of every chunk after the first and
concatenating reconstructs the original word sequence, and every word of the
input occurs in at least one chunk.  For the sentence-aware policy the chunks
concatenate exactly to the input word sequence and every word occurs in at
least one chunk. -/
theorem C4_chunk_coverage :
    (∀ (α : Type) (words : List α) (max_words overlap : Nat)
      (cs : List (List α)),
      overlap < max_words →
      BuildFaissIndex.chunk_text words max_words overlap = .ok cs →
      dropOverlap overlap cs = words ∧ ∀ x ∈ words, ∃ c ∈ cs, x ∈ c) ∧
    (∀ (α : Type) (ss : List (List α)) (max_words : Nat),
      (EmbdToAoss.chunk_text ss max_words).flatten = ss.flatten ∧
      ∀ x ∈ ss.flatten, ∃ c ∈ EmbdToAoss.chunk_text ss max_words, x ∈ c) := by
  constructor
  · intro α words max_words overlap cs hv hcs
    rw [BuildFaissIndex.chunk_text_ok hv] at hcs
    injection hcs with h
    subst h
    refine ⟨BuildFaissIndex.dropOverlap_windowChunks hv words, ?_⟩
    intro x hx
    have hx' : x ∈ dropOverlap overlap
        (BuildFaissIndex.windowChunks words max_words (max_words - overlap)) := by
      rw [BuildFaissIndex.dropOverlap_windowChunks hv]
      exact hx
    exact exists_mem_of_mem_dropOverlap hx'
  · intro α ss max_words
    refine ⟨EmbdToAoss.chunk_text_flatten ss max_words, ?_⟩
    intro x hx
    have hx' : x ∈ (EmbdToAoss.chunk_text ss max_words).flatten := by
      rw [EmbdToAoss.chunk_text_flatten]
      exact hx
    exact List.mem_flatten.mp hx'

/-- Witness for C4 at concrete inputs for both policies. -/
theorem C4_chunk_coverage_witness :
    1 < 2 ∧
    dropOverlap 1 (BuildFaissIndex.windowChunks [(0 : ℕ), 1, 2] 2 1) = [0, 1, 2] ∧
    (EmbdToAoss.chunk_text [[(0 : ℕ), 1], [2]] 2).flatten = [[(0 : ℕ), 1], [2]].flatten := by
  refine ⟨by omega, ?_, ?_⟩
  · exact (C4_chunk_coverage.1 ℕ [0, 1, 2] 2 1 _ (by omega)
      (BuildFaissIndex.chunk_text_ok (by omega))).1
  · exact (C4_chunk_coverage.2 ℕ [[0, 1], [2]] 2).1

/-! Ingest pairing (C1). -/

namespace BuildFaissIndex

theorem process_ingest_spec (ops : List IngestOp) :
    ∀ st : RagIndexState, process_ingest st ops =
      ⟨st.vectors ++ ops.map (fun o => o.embedding),
       st.metadata ++ ops.map (fun o => ⟨o.chunk, o.source⟩)⟩ := by
  induction ops with
  | nil =>
    intro st
    simp [process_ingest]
  | cons op rest ih =>
    intro st
    simp only [process_ingest, List.foldl_cons] at *
    rw [ih (ingest_chunk st op)]
    simp [ingest_chunk, List.append_assoc]

end BuildFaissIndex

theorem getD_map_lt {β γ : Type} {l : List β} {f : β → γ} {i : Nat} (d : β)
    (dg : γ) (h : i < l.length) : (l.map f).getD i dg = f (l.getD i d) := by
  induction l generalizing i with
  | nil => simp at h
  | cons a l ih =>
    cases i with
    | zero => simp
    | succ i =>
      simp only [List.map_cons, List.getD_cons_succ]
      exact ih (by simp at h; omega)

/-- C1: after any sequence of successful ingest operations starting from the
fresh FAISS index and empty metadata list of `build_faiss_index.py`, the
metadata store length equals the vector index size, both equal the number of
operations, and the record kept at each slot `i` is the chunk/source pair of
the same operation whose embedding sits at vector slot `i`. -/
theorem C1_ingest_pairing (ops : List BuildFaissIndex.IngestOp) :
    (BuildFaissIndex.process_ingest ⟨[], []⟩ ops).metadata.length =
      (BuildFaissIndex.process_ingest ⟨[], []⟩ ops).vectors.length ∧
    (BuildFaissIndex.process_ingest ⟨[], []⟩ ops).metadata.length = ops.length ∧
    ∀ i, i < ops.length →
      (BuildFaissIndex.process_ingest ⟨[], []⟩ ops).metadata.getD i ⟨"", ""⟩ =
        ⟨(ops.getD i ⟨"", "", []⟩).chunk, (ops.getD i ⟨"", "", []⟩).source⟩ ∧
      (BuildFaissIndex.process_ingest ⟨[], []⟩ ops).vectors.getD i [] =
        (ops.getD i ⟨"", "", []⟩).embedding := by
  rw [BuildFaissIndex.process_ingest_spec]
  refine ⟨by simp, by simp, ?_⟩
  intro i hi
  constructor
  · simp only [List.nil_append]
    exact getD_map_lt ((⟨"", "", []⟩ : BuildFaissIndex.IngestOp))
      ((⟨"", ""⟩ : Metadata)) hi
  · simp only [List.nil_append]
    exact getD_map_lt ((⟨"", "", []⟩ : BuildFaissIndex.IngestOp))
      (([] : List ℚ)) hi

/-- Witness for C1 with one concrete ingest operation. -/
theorem C1_ingest_pairing_witness :
    0 < 1 ∧
    (BuildFaissIndex.process_ingest ⟨[], []⟩ [⟨"c", "s", [1]⟩]).metadata.getD 0 ⟨"", ""⟩ =
      ⟨"c", "s"⟩ ∧
    (BuildFaissIndex.process_ingest ⟨[], []⟩ [⟨"c", "s", [1]⟩]).vectors.getD 0 [] = [1] := by
  have h := (C1_ingest_pairing [⟨"c", "s", [1]⟩]).2.2 0 (by decide)
  exact ⟨by omega, h.1, h.2⟩

/-- C5 counterexample: with RAG disabled, the local CLI `query_rag.py` does
not send the question verbatim: for the question "hi" the prompt differs
from "hi" (it is the fixed wrapper template around the question). -/
theorem C5_counterexample :
    (QueryRagLocal.disable_rag_prompt "hi" == "hi") = false := by
  decide

/-- C5 amended: with RAG disabled the Lambda handler's prompt is the question
verbatim, but the local CLI instead wraps the question in a fixed template
("Answer the following question:" / "Question:" / "Answer:"), so its prompt
never equals the question. -/
theorem C5_passthrough_amended (q : String) (chunks : List String) :
    LambdaFunction.full_prompt false q chunks = q ∧
    (QueryRagLocal.disable_rag_prompt q == q) = false := by
  constructor
  · rfl
  · rw [beq_eq_false_iff_ne]
    intro h
    have hlen := congrArg String.length h
    simp only [QueryRagLocal.disable_rag_prompt, String.length_append] at hlen
    have h1 : 0 < ("Answer the following question:\n\nQuestion: ").length := by
      decide
    omega

/-! Generation dispatch (C6). -/

theorem isPrefixOf_trans {p q l : List Char} :
    p.isPrefixOf q = true → q.isPrefixOf l = true → p.isPrefixOf l = true := by
  induction p generalizing q l with
  | nil =>
    intro _ _
    simp [List.isPrefixOf]
  | cons a p ih =>
    intro h1 h2
    cases q with
    | nil => simp [List.isPrefixOf] at h1
    | cons b q =>
      cases l with
      | nil => simp [List.isPrefixOf] at h2
      | cons c l =>
        simp only [List.isPrefixOf, Bool.and_eq_true, beq_iff_eq] at h1 h2 ⊢
        obtain ⟨rfl, h1'⟩ := h1
        obtain ⟨rfl, h2'⟩ := h2
        exact ⟨rfl, ih h1' h2'⟩

theorem startswith_mistral7b {s : String}
    (h : startswith s "mistral." = false) :
    startswith s "mistral.mistral-7b" = false := by
  unfold startswith at *
  by_contra hc
  simp only [Bool.not_eq_false] at hc
  have hpre : ("mistral.".data.isPrefixOf "mistral.mistral-7b".data) = true := by
    decide
  have ht := isPrefixOf_trans hpre hc
  rw [ht] at h
  cases h

/-- C6: for any prompt and any model id outside the known families (no
Claude, Titan Text, Mistral or Cohere Command prefix), both generation
dispatchers fail with the unsupported-model error and make zero transport
calls. -/
theorem C6_unsupported_model (prompt model_id : String)
    (t1 : QueryRagLocal.BedrockRequest → String)
    (t2 : LambdaFunction.BedrockRequest → String)
    (h1 : startswith model_id "anthropic.claude" = false)
    (h2 : startswith model_id "amazon.titan-text" = false)
    (h3 : startswith model_id "mistral." = false)
    (h4 : startswith model_id "cohere.command-r" = false) :
    QueryRagLocal.call_bedrock_model prompt t1 model_id =
      (.error ("Unsupported model: " ++ model_id), 0) ∧
    LambdaFunction.generate_answer prompt model_id t2 =
      (.error ("Unsupported model_id: " ++ model_id), 0) := by
  have h5 := startswith_mistral7b h3
  constructor
  · unfold QueryRagLocal.call_bedrock_model
    simp [h1, h2, h3]
  · unfold LambdaFunction.generate_answer
    simp [h1, h2, h4, h5]

/-- Witness for C6 at the concrete unknown model id "gpt-4". -/
theorem C6_unsupported_model_witness :
    startswith "gpt-4" "anthropic.claude" = false ∧
    QueryRagLocal.call_bedrock_model "hi" (fun _ => "r") "gpt-4" =
      (.error ("Unsupported model: " ++ "gpt-4"), 0) ∧
    LambdaFunction.generate_answer "hi" "gpt-4" (fun _ => "r") =
      (.error ("Unsupported model_id: " ++ "gpt-4"), 0) := by
  have h := C6_unsupported_model "hi" "gpt-4" (fun _ => "r") (fun _ => "r")
    (by decide) (by decide) (by decide) (by decide)
  exact ⟨by decide, h.1, h.2⟩

/-- C7 (evaluation of the code at the failing inputs): `retrieve_top_k` with
the default `k = 5` raises `IndexError` on an empty index (FAISS pads the
label row with `-1` and `metadata[-1]` on an empty list is out of range),
and on an index holding a single vector it returns five records — the one
real record followed by four copies of it produced by Python's negative
indexing on the `-1` padding — instead of the single existing entry. -/
theorem C7_faiss_padding_eval :
    QueryRagLocal.retrieve_top_k [] [0] ([] : List Metadata) 5 =
      .error "list index out of range" ∧
    QueryRagLocal.retrieve_top_k [[0]] [0] [⟨"c", "s"⟩] 5 =
      .ok [⟨"c", "s"⟩, ⟨"c", "s"⟩, ⟨"c", "s"⟩, ⟨"c", "s"⟩, ⟨"c", "s"⟩] := by
  constructor
  · rfl
  · rfl

/-- C8 counterexample: with `overlap = 3` greater than `max_words = 2` the
windowed chunker returns successfully with an empty chunk list — Python
`range(0, n, -1)` is empty — instead of failing with a configuration
error. -/
theorem C8_counterexample :
    BuildFaissIndex.chunk_text [(0 : ℕ)] 2 3 = .ok [] := by
  rfl

/-- C8 amended: the windowed chunker performs no parameter validation.  With
`overlap = max_words` the zero `range` step raises (a `ValueError` from
`range`, before any chunk is produced); with `overlap > max_words` it
silently returns an empty chunk list without raising; with
`overlap < max_words` it never raises and returns the window list. -/
theorem C8_config_amended (α : Type) (words : List α) (max_words overlap : Nat) :
    (max_words = overlap →
      BuildFaissIndex.chunk_text words max_words overlap =
        .error "range() arg 3 must not be zero") ∧
    (max_words < overlap →
      BuildFaissIndex.chunk_text words max_words overlap = .ok []) ∧
    (overlap < max_words →
      BuildFaissIndex.chunk_text words max_words overlap =
        .ok (BuildFaissIndex.windowChunks words max_words (max_words - overlap))) := by
  refine ⟨?_, ?_, ?_⟩
  · intro h
    unfold BuildFaissIndex.chunk_text
    rw [if_pos h]
  · intro h
    unfold BuildFaissIndex.chunk_text
    rw [if_neg (by omega), if_pos h]
  · intro h
    exact BuildFaissIndex.chunk_text_ok h

/-- Witness for C8 (amended) at concrete parameter triples. -/
theorem C8_config_amended_witness :
    BuildFaissIndex.chunk_text [(0 : ℕ)] 2 2 =
      .error "range() arg 3 must not be zero" ∧
    BuildFaissIndex.chunk_text [(0 : ℕ), 1] 2 3 = .ok [] ∧
    BuildFaissIndex.chunk_text [(0 : ℕ), 1] 3 1 =
      .ok (BuildFaissIndex.windowChunks [0, 1] 3 2) :=
  ⟨(C8_config_amended ℕ [0] 2 2).1 rfl,
   (C8_config_amended ℕ [0, 1] 2 3).2.1 (by omega),
   (C8_config_amended ℕ [0, 1] 3 1).2.2 (by omega)⟩

/-! Ingest error handling (C9). -/

theorem process_chunks_loop_spec (e : String → Except String (List ℚ))
    (src : String) :
    ∀ (chunks : List String) (docs : List EmbdToAoss.AossDoc),
      EmbdToAoss.process_chunks_loop e src chunks docs =
        docs ++ chunks.filterMap (fun c =>
          if (strip c).length < 20 then none
          else match e c with
            | .error _ => none
            | .ok v => some ⟨c, v, src⟩) := by
  intro chunks
  induction chunks with
  | nil =>
    intro docs
    simp [EmbdToAoss.process_chunks_loop]
  | cons c rest ih =>
    intro docs
    simp only [EmbdToAoss.process_chunks_loop, List.filterMap_cons]
    by_cases h : (strip c).length < 20
    · simp only [if_pos h]
      exact ih docs
    · simp only [if_neg h]
      cases he : e c with
      | error err =>
        simp only [he]
        exact ih docs
      | ok v =>
        simp only [he]
        rw [ih]
        simp [List.append_assoc]

theorem process_chunks_spec (e : String → Except String (List ℚ))
    (src : String) :
    ∀ (chunks : List String) (st : BuildFaissIndex.RagIndexState),
      BuildFaissIndex.process_chunks e src chunks st =
        (BuildFaissIndex.process_ingest st
          ((chunks.takeWhile (fun c => exceptOkB (e c))).map
            (fun c => ⟨c, src, exceptVal (e c)⟩)),
         ((chunks.dropWhile (fun c => exceptOkB (e c))).head?.map
           (fun c => exceptErr (e c)))) := by
  intro chunks
  induction chunks with
  | nil =>
    intro st
    simp [BuildFaissIndex.process_chunks, BuildFaissIndex.process_ingest]
  | cons c rest ih =>
    intro st
    rw [List.takeWhile_cons, List.dropWhile_cons]
    cases he : e c with
    | error err =>
      simp [BuildFaissIndex.process_chunks, he, exceptOkB, exceptErr,
        BuildFaissIndex.process_ingest]
    | ok v =>
      simp only [BuildFaissIndex.process_chunks, he]
      rw [ih]
      simp [he, exceptOkB, exceptVal, BuildFaissIndex.process_ingest]

/-- C9 counterexample: in `build_faiss_index.py` a failing chunk aborts the
ingest of the remaining chunks.  With chunks "a", "b", "c" and an embedding
call that fails exactly on "b", the loop ingests "a", stops with the error,
and never ingests "c" (which would have succeeded). -/
theorem C9_counterexample :
    BuildFaissIndex.process_chunks
      (fun c => if c = "b" then .error "boom" else .ok [0]) "src"
      ["a", "b", "c"] ⟨[], []⟩ =
      (⟨[[0]], [⟨"a", "src"⟩]⟩, some "boom") := by
  rfl

/-- C9 amended: the AOSS pipeline (`embd_to_aoss.py`) skips failing chunks
and continues — its result is exactly the successful, non-short chunks in
order; the local FAISS pipeline (`build_faiss_index.py`) has no per-chunk
error handling — it ingests the longest error-free prefix of the chunk list
and aborts at the first failure, reporting that failure. -/
theorem C9_skip_amended (embed : String → Except String (List ℚ))
    (src : String) (chunks : List String) (docs : List EmbdToAoss.AossDoc)
    (st : BuildFaissIndex.RagIndexState) :
    EmbdToAoss.process_chunks_loop embed src chunks docs =
      docs ++ chunks.filterMap (fun c =>
        if (strip c).length < 20 then none
        else match embed c with
          | .error _ => none
          | .ok v => some ⟨c, v, src⟩) ∧
    BuildFaissIndex.process_chunks embed src chunks st =
      (BuildFaissIndex.process_ingest st
        ((chunks.takeWhile (fun c => exceptOkB (embed c))).map
          (fun c => ⟨c, src, exceptVal (embed c)⟩)),
       ((chunks.dropWhile (fun c => exceptOkB (embed c))).head?.map
         (fun c => exceptErr (embed c)))) :=
  ⟨process_chunks_loop_spec embed src chunks docs,
   process_chunks_spec embed src chunks st⟩

/-- C10 counterexample: a request with the non-empty prompt "hi" and the
unsupported model id "foo" makes `lambda_handler` raise the unsupported-model
`ValueError` (no response with status code 200 is returned). -/
theorem C10_counterexample :
    LambdaFunction.lambda_handler [("prompt", "hi"), ("model_id", "foo")]
      (fun _ => .ok []) (fun _ => .ok []) (fun _ => "ans") =
      (.error ("Unsupported model_id: " ++ "foo"), 0, 0, 0) := by
  rfl

/-- Helper for the unsupported-model case of the Lambda handler: when the
model id has none of the four family prefixes, `generate_answer` raises the
unsupported-model `ValueError` with no transport call. -/
theorem generate_answer_unsupported (prompt : String) {model_id : String}
    (transport : LambdaFunction.BedrockRequest → String)
    (h1 : startswith model_id "anthropic.claude" = false)
    (h2 : startswith model_id "amazon.titan-text" = false)
    (h3 : startswith model_id "mistral." = false)
    (h4 : startswith model_id "cohere.command-r" = false) :
    LambdaFunction.generate_answer prompt model_id transport =
      (.error ("Unsupported model_id: " ++ model_id), 0) := by
  have h5 := startswith_mistral7b h3
  unfold LambdaFunction.generate_answer
  simp [h1, h2, h4, h5]

/-- C10 amended: a request whose `prompt` query parameter is missing or empty
gets status 400 with the missing-prompt body and no embedding, search or
generation call.  For a request with a non-empty prompt the handler is fully
characterized: whenever every pipeline stage succeeds (generation alone with
RAG disabled; embedding, search and generation with RAG enabled) it returns
status 200 with a JSON body carrying the stripped transport answer; whenever
a stage fails — in particular on an unsupported model id, which raises the
unsupported-model `ValueError` before any generation transport call — the
exception propagates and no 200 response is returned. -/
theorem C10_handler_amended (qsp : List (String × String))
    (embed : String → Except String (List ℚ))
    (search : List ℚ → Except String (List String))
    (transport : LambdaFunction.BedrockRequest → String) :
    (LambdaFunction.paramsGet qsp "prompt" "" = "" →
      LambdaFunction.lambda_handler qsp embed search transport =
        (.ok ⟨400, .missingPrompt⟩, 0, 0, 0)) ∧
    (LambdaFunction.paramsGet qsp "prompt" "" ≠ "" →
      ((tolower (LambdaFunction.paramsGet qsp "enable_rag" "false") == "true") = false →
        (∀ a n, LambdaFunction.generate_answer
            (LambdaFunction.paramsGet qsp "prompt" "")
            (LambdaFunction.paramsGet qsp "model_id" "amazon.titan-text-lite-v1")
            transport = (.ok a, n) →
          LambdaFunction.lambda_handler qsp embed search transport =
            (.ok ⟨200, .answerJson (strip a)⟩, 0, 0, n)) ∧
        (∀ e n, LambdaFunction.generate_answer
            (LambdaFunction.paramsGet qsp "prompt" "")
            (LambdaFunction.paramsGet qsp "model_id" "amazon.titan-text-lite-v1")
            transport = (.error e, n) →
          LambdaFunction.lambda_handler qsp embed search transport =
            (.error e, 0, 0, n)) ∧
        (startswith (LambdaFunction.paramsGet qsp "model_id" "amazon.titan-text-lite-v1")
            "anthropic.claude" = false →
         startswith (LambdaFunction.paramsGet qsp "model_id" "amazon.titan-text-lite-v1")
            "amazon.titan-text" = false →
         startswith (LambdaFunction.paramsGet qsp "model_id" "amazon.titan-text-lite-v1")
            "mistral." = false →
         startswith (LambdaFunction.paramsGet qsp "model_id" "amazon.titan-text-lite-v1")
            "cohere.command-r" = false →
          LambdaFunction.lambda_handler qsp embed search transport =
            (.error ("Unsupported model_id: " ++
              LambdaFunction.paramsGet qsp "model_id" "amazon.titan-text-lite-v1"),
             0, 0, 0))) ∧
      ((tolower (LambdaFunction.paramsGet qsp "enable_rag" "false") == "true") = true →
        (∀ e, embed (LambdaFunction.paramsGet qsp "prompt" "") = .error e →
          LambdaFunction.lambda_handler qsp embed search transport =
            (.error e, 1, 0, 0)) ∧
        (∀ v e, embed (LambdaFunction.paramsGet qsp "prompt" "") = .ok v →
          search v = .error e →
          LambdaFunction.lambda_handler qsp embed search transport =
            (.error e, 1, 1, 0)) ∧
        (∀ v chunks a n, embed (LambdaFunction.paramsGet qsp "prompt" "") = .ok v →
          search v = .ok chunks →
          LambdaFunction.generate_answer
            (LambdaFunction.rag_prompt (LambdaFunction.paramsGet qsp "prompt" "") chunks)
            (LambdaFunction.paramsGet qsp "model_id" "amazon.titan-text-lite-v1")
            transport = (.ok a, n) →
          LambdaFunction.lambda_handler qsp embed search transport =
            (.ok ⟨200, .answerJson (strip a)⟩, 1, 1, n)) ∧
        (∀ v chunks e n, embed (LambdaFunction.paramsGet qsp "prompt" "") = .ok v →
          search v = .ok chunks →
          LambdaFunction.generate_answer
            (LambdaFunction.rag_prompt (LambdaFunction.paramsGet qsp "prompt" "") chunks)
            (LambdaFunction.paramsGet qsp "model_id" "amazon.titan-text-lite-v1")
            transport = (.error e, n) →
          LambdaFunction.lambda_handler qsp embed search transport =
            (.error e, 1, 1, n)))) := by
  constructor
  · intro h
    simp only [LambdaFunction.lambda_handler]
    rw [if_pos h]
  · intro h
    constructor
    · intro hrag
      refine ⟨?_, ?_, ?_⟩
      · intro a n hgen
        simp only [LambdaFunction.lambda_handler]
        rw [if_neg h, if_neg (by simp [hrag]), hgen]
      · intro e n hgen
        simp only [LambdaFunction.lambda_handler]
        rw [if_neg h, if_neg (by simp [hrag]), hgen]
      · intro h1 h2 h3 h4
        have hgen := generate_answer_unsupported
          (LambdaFunction.paramsGet qsp "prompt" "") transport h1 h2 h3 h4
        simp only [LambdaFunction.lambda_handler]
        rw [if_neg h, if_neg (by simp [hrag]), hgen]
    · intro hrag
      refine ⟨?_, ?_, ?_, ?_⟩
      · intro e hembed
        simp only [LambdaFunction.lambda_handler]
        rw [if_neg h, if_pos hrag, hembed]
      · intro v e hembed hsearch
        simp only [LambdaFunction.lambda_handler]
        rw [if_neg h, if_pos hrag]
        simp only [hembed, hsearch]
      · intro v chunks a n hembed hsearch hgen
        simp only [LambdaFunction.lambda_handler]
        rw [if_neg h, if_pos hrag]
        simp only [hembed, hsearch, hgen]
      · intro v chunks e n hembed hsearch hgen
        simp only [LambdaFunction.lambda_handler]
        rw [if_neg h, if_pos hrag]
        simp only [hembed, hsearch, hgen]

/-- Witness for C10 (amended): a request with no query parameters gets the
400 response with zero collaborator calls; a concrete request with prompt
"hi" and the default (supported) model gets the 200 response carrying the
stripped transport answer after one generation call; and the same request
with the unsupported model id "foo" raises the unsupported-model error with
zero collaborator calls. -/
theorem C10_handler_amended_witness :
    LambdaFunction.paramsGet ([] : List (String × String)) "prompt" "" = "" ∧
    LambdaFunction.lambda_handler [] (fun _ => .ok []) (fun _ => .ok [])
      (fun _ => "ans") = (.ok ⟨400, .missingPrompt⟩, 0, 0, 0) ∧
    LambdaFunction.lambda_handler [("prompt", "hi")] (fun _ => .ok [])
      (fun _ => .ok []) (fun _ => "ans") =
      (.ok ⟨200, .answerJson (strip "ans")⟩, 0, 0, 1) ∧
    LambdaFunction.lambda_handler [("prompt", "hi"), ("model_id", "gpt-4")]
      (fun _ => .ok []) (fun _ => .ok []) (fun _ => "ans") =
      (.error ("Unsupported model_id: " ++ "gpt-4"), 0, 0, 0) := by
  refine ⟨rfl, ?_, ?_, ?_⟩
  · exact (C10_handler_amended [] (fun _ => .ok []) (fun _ => .ok [])
      (fun _ => "ans")).1 rfl
  · exact (((C10_handler_amended [("prompt", "hi")] (fun _ => .ok [])
      (fun _ => .ok []) (fun _ => "ans")).2 (by decide)).1 rfl).1 "ans" 1 rfl
  · exact (((C10_handler_amended [("prompt", "hi"), ("model_id", "gpt-4")]
      (fun _ => .ok []) (fun _ => .ok []) (fun _ => "ans")).2 (by decide)).1
      rfl).2.2 (by decide) (by decide) (by decide) (by decide)
